import Mathlib

/-!
Shallow embedding of the go-bitquery client library (`bitquery.go`).

The library has two operations:
* `Do` — builds one HTTP POST request carrying the JSON body
  `{"query": x.Query(), "variables": x.ToMap()}` with headers
  `Content-Type: application/json` and `X-API-KEY: <apikey>`, executes it
  over a shared HTTP client, and returns the raw response body bytes.
* `Unmarshal` — calls `Do`, then tries to parse the body as the GraphQL
  envelope `{data, errors}` (struct `Wrapper`); on a parse error containing
  the substring `invalid character '<'` it returns the raw body text; on
  other parse errors it falls back to decoding the whole body into the
  caller target; on a non-empty error list it returns a `query error: ...`
  message; otherwise it decodes the raw `data` payload into the target.

The embedding models JSON documents with an inductive `Json` type, Go's
`encoding/json` parsing with an executable recursive-descent parser that
reproduces the Go scanner error messages the code inspects
(`invalid character 'c' looking for beginning of value`,
`unexpected end of JSON input`), and struct decoding as a per-key fold:
keys match fields case-insensitively as Go json does, later matching keys
overwrite, null values no-op into string and int fields but set slice,
map, pointer and interface values to nil, and type errors are saved while
decoding continues.  The caller target `ptr any` is abstracted by a
`Target` record holding its decoder for non-null documents and its Go
null action, together with the target's prior value `t0 : α`.  The HTTP
transport is an oracle `HttpRequest → Except String HttpResponse`, and
the URL validation inside http.NewRequest (net/url, outside this
repository) is an oracle `String → Option String`; `Do` additionally
returns the trace of issued requests and whether the response body was
closed, so that the single-request and body-close guarantees are statable.
-/

namespace Bitquery

/-- Single quote character, built from its code point so the source text
stays free of quote characters inside string literals. -/
def sq : String := (Char.ofNat 39).toString

/-- JSON documents.  Numbers are restricted to integers, which covers every
document the library or its fixtures exchange. -/
inductive Json where
  | null : Json
  | bool : Bool → Json
  | num : Int → Json
  | str : String → Json
  | arr : List Json → Json
  | obj : List (String × Json) → Json

/-- Go scanner error for an unexpected byte at the start of a value. -/
def invalidCharMsg (c : Char) : String :=
  "invalid character " ++ sq ++ c.toString ++ sq ++ " looking for beginning of value"

/-- Go scanner error for an unexpected byte after a complete top-level value. -/
def invalidAfterTopMsg (c : Char) : String :=
  "invalid character " ++ sq ++ c.toString ++ sq ++ " after top-level value"

/-- Go scanner error for truncated input. -/
def eofMsg : String := "unexpected end of JSON input"

/-- The substring the source code tests for with strings.Contains
(the HTML-page heuristic). -/
def htmlHeuristic : String := "invalid character " ++ sq ++ "<" ++ sq

/-- Whitespace skipping, as in the Go JSON scanner (space, tab, newline, CR). -/
def skipWs : List Char → List Char
  | [] => []
  | c :: cs => if c = ' ' ∨ c = '\t' ∨ c = '\n' ∨ c = '\r' then skipWs cs else c :: cs

/-- Parse the body of a JSON string literal after the opening quote,
handling the escapes the library fixtures use. -/
def parseStringBody (acc : List Char) : List Char → Except String (String × List Char)
  | [] => .error eofMsg
  | '"' :: rest => .ok (String.mk acc.reverse, rest)
  | '\\' :: c :: rest =>
    if c = '"' then parseStringBody ('"' :: acc) rest
    else if c = '\\' then parseStringBody ('\\' :: acc) rest
    else if c = '/' then parseStringBody ('/' :: acc) rest
    else if c = 'n' then parseStringBody ('\n' :: acc) rest
    else if c = 't' then parseStringBody ('\t' :: acc) rest
    else .error ("invalid character " ++ sq ++ c.toString ++ sq ++ " in string escape code")
  | '\\' :: [] => .error eofMsg
  | c :: rest => parseStringBody (c :: acc) rest

/-- Split a leading run of decimal digits from the input. -/
def takeDigits : List Char → (List Char × List Char)
  | [] => ([], [])
  | c :: cs =>
    if c.isDigit then
      let p := takeDigits cs
      (c :: p.1, p.2)
    else ([], c :: cs)

/-- Decimal digits to a natural number. -/
def digitsToNat (ds : List Char) : Nat :=
  ds.foldl (fun a c => a * 10 + (c.toNat - 48)) 0

/-- Check that the input starts with the given literal characters and
return the remainder. -/
def expectLit (lit : List Char) (input : List Char) : Except String (List Char) :=
  match lit, input with
  | [], rest => .ok rest
  | _ :: _, [] => .error eofMsg
  | l :: ls, c :: cs =>
    if c = l then expectLit ls cs else .error (invalidCharMsg c)

mutual

/-- Recursive-descent JSON value parser mirroring the Go scanner, with fuel
for termination.  Returns the parsed value and the unconsumed remainder. -/
def parseValue : Nat → List Char → Except String (Json × List Char)
  | 0, _ => .error eofMsg
  | fuel + 1, input =>
    match skipWs input with
    | [] => .error eofMsg
    | c :: cs =>
      if c = 'n' then
        match expectLit ['u', 'l', 'l'] cs with
        | .error e => .error e
        | .ok rest => .ok (.null, rest)
      else if c = 't' then
        match expectLit ['r', 'u', 'e'] cs with
        | .error e => .error e
        | .ok rest => .ok (.bool true, rest)
      else if c = 'f' then
        match expectLit ['a', 'l', 's', 'e'] cs with
        | .error e => .error e
        | .ok rest => .ok (.bool false, rest)
      else if c = '"' then
        match parseStringBody [] cs with
        | .error e => .error e
        | .ok (s, rest) => .ok (.str s, rest)
      else if c = '-' then
        match takeDigits cs with
        | ([], _) => .error (invalidCharMsg c)
        | (ds, rest) => .ok (.num (-(digitsToNat ds : Int)), rest)
      else if c.isDigit then
        match takeDigits (c :: cs) with
        | (ds, rest) => .ok (.num (digitsToNat ds : Int), rest)
      else if c = '[' then
        match skipWs cs with
        | ']' :: rest => .ok (.arr [], rest)
        | other =>
          match parseValue fuel other with
          | .error e => .error e
          | .ok (v, rest) => parseArrTail fuel [v] rest
      else if c = '{' then
        match skipWs cs with
        | '}' :: rest => .ok (.obj [], rest)
        | other =>
          match parseMember fuel other with
          | .error e => .error e
          | .ok (kv, rest) => parseObjTail fuel [kv] rest
      else .error (invalidCharMsg c)

/-- After an array element: expect a comma and another element, or the
closing bracket. -/
def parseArrTail : Nat → List Json → List Char → Except String (Json × List Char)
  | 0, _, _ => .error eofMsg
  | fuel + 1, acc, input =>
    match skipWs input with
    | [] => .error eofMsg
    | ']' :: rest => .ok (.arr acc.reverse, rest)
    | ',' :: rest =>
      match parseValue fuel rest with
      | .error e => .error e
      | .ok (v, rest2) => parseArrTail fuel (v :: acc) rest2
    | c :: _ => .error ("invalid character " ++ sq ++ c.toString ++ sq ++ " after array element")

/-- One object member: a quoted key, a colon, then a value. -/
def parseMember : Nat → List Char → Except String ((String × Json) × List Char)
  | 0, _ => .error eofMsg
  | fuel + 1, input =>
    match skipWs input with
    | [] => .error eofMsg
    | '"' :: cs =>
      match parseStringBody [] cs with
      | .error e => .error e
      | .ok (k, rest) =>
        match skipWs rest with
        | ':' :: rest2 =>
          match parseValue fuel rest2 with
          | .error e => .error e
          | .ok (v, rest3) => .ok ((k, v), rest3)
        | c :: _ =>
          .error ("invalid character " ++ sq ++ c.toString ++ sq ++ " after object key")
        | [] => .error eofMsg
    | c :: _ =>
      .error ("invalid character " ++ sq ++ c.toString ++ sq ++ " looking for beginning of object key string")

/-- After an object member: expect a comma and another member, or the
closing brace. -/
def parseObjTail : Nat → List (String × Json) → List Char → Except String (Json × List Char)
  | 0, _, _ => .error eofMsg
  | fuel + 1, acc, input =>
    match skipWs input with
    | [] => .error eofMsg
    | '}' :: rest => .ok (.obj acc.reverse, rest)
    | ',' :: rest =>
      match parseMember fuel rest with
      | .error e => .error e
      | .ok (kv, rest2) => parseObjTail fuel (kv :: acc) rest2
    | c :: _ =>
      .error ("invalid character " ++ sq ++ c.toString ++ sq ++ " after object key:value pair")

end

/-- Full-document JSON parse, as Go json.Unmarshal performs before decoding:
one value, then only whitespace to the end of input. -/
def parseTop (s : String) : Except String Json :=
  let cs := s.toList
  match parseValue (2 * cs.length + 2) cs with
  | .error e => .error e
  | .ok (j, rest) =>
    match skipWs rest with
    | [] => .ok j
    | c :: _ => .error (invalidAfterTopMsg c)

/-- Last binding of a key in an object field list; Go json keeps the last
occurrence of a duplicated key. -/
def lookupLast (k : String) : List (String × Json) → Option Json
  | [] => none
  | (k2, v) :: rest =>
    match lookupLast k rest with
    | some v2 => some v2
    | none => if k2 = k then some v else none

/-- Source type Locations: one (line, column) source position of a
reported GraphQL error. -/
structure Locations where
  line : Int
  column : Int

/-- Source type ErrorM: one reported GraphQL error with its message and
source locations. -/
structure ErrorM where
  message : String
  locations : List Locations

/-- Source method ErrorM.String: the fmt.Stringer implementation, which
prints only the message. -/
def ErrorM.String (e : ErrorM) : String := e.message

/-- Source type Wrapper: the decoded envelope.  data is a json.RawMessage
(nil when the field is absent, hence Option; the raw payload is kept as a
Json value), errors is the decoded error list (nil decodes to the empty
list). -/
structure Wrapper where
  data : Option Json
  errors : List ErrorM

/-- ASCII lower-casing on character codes; the field tags of this library
are ASCII, so this is the fragment of the Go case folding that can ever
match them. -/
def lowerCode (c : Char) : Nat :=
  if 65 ≤ c.toNat ∧ c.toNat ≤ 90 then c.toNat + 32 else c.toNat

/-- Go json matches an object key to a struct field tag preferring an exact
match but also accepting a case-insensitive one; with one candidate field
per tag this is case-insensitive key equality. -/
def keyMatches (k fieldName : String) : Bool :=
  k.toList.map lowerCode == fieldName.toList.map lowerCode

/-- Keep the first type error Go json saves while it continues decoding
the remaining keys. -/
def firstErr : Option String → String → Option String
  | some e, _ => some e
  | none, e => some e

/-- Per-key fold decoding an object into a Locations struct, mirroring Go
json: keys are matched case-insensitively, each matching key decodes into
its field in document order so a later key overwrites an earlier one, a
null value into an int field is a no-op, a non-number is a type error that
is saved while decoding continues, and the first saved error is returned
at the end. -/
def decodeLocationsLoop : List (String × Json) → Int → Int → Option String → Except String Locations
  | [], line, col, none => .ok { line := line, column := col }
  | [], _, _, some e => .error e
  | (k, v) :: rest, line, col, err =>
    if keyMatches k "line" then
      match v with
      | .num n => decodeLocationsLoop rest n col err
      | .null => decodeLocationsLoop rest line col err
      | _ =>
        decodeLocationsLoop rest line col
          (firstErr err "json: cannot unmarshal value into Go struct field Locations.line of type int")
    else if keyMatches k "column" then
      match v with
      | .num m => decodeLocationsLoop rest line m err
      | .null => decodeLocationsLoop rest line col err
      | _ =>
        decodeLocationsLoop rest line col
          (firstErr err "json: cannot unmarshal value into Go struct field Locations.column of type int")
    else decodeLocationsLoop rest line col err

/-- Decode one Locations value as Go json would: a null element is a
no-op leaving the zero value, an object decodes by the per-key fold,
anything else is a type error. -/
def decodeLocations (j : Json) : Except String Locations :=
  match j with
  | .null => .ok { line := 0, column := 0 }
  | .obj fields => decodeLocationsLoop fields 0 0 none
  | _ => .error "json: cannot unmarshal value into Go value of type bitquery.Locations"

/-- Map a Json list through a decoder, stopping at the first error, as Go
json does for slice elements. -/
def decodeList (dec : Json → Except String α) : List Json → Except String (List α)
  | [] => .ok []
  | j :: rest =>
    match dec j with
    | .error e => .error e
    | .ok v =>
      match decodeList dec rest with
      | .error e => .error e
      | .ok vs => .ok (v :: vs)

/-- Per-key fold decoding an object into an ErrorM struct, with the same
Go json conventions as decodeLocationsLoop; a null value into the string
field message is a no-op, while a null into the slice field locations
sets the slice to nil. -/
def decodeErrorMLoop : List (String × Json) → String → List Locations → Option String → Except String ErrorM
  | [], msg, locs, none => .ok { message := msg, locations := locs }
  | [], _, _, some e => .error e
  | (k, v) :: rest, msg, locs, err =>
    if keyMatches k "message" then
      match v with
      | .str s => decodeErrorMLoop rest s locs err
      | .null => decodeErrorMLoop rest msg locs err
      | _ =>
        decodeErrorMLoop rest msg locs
          (firstErr err "json: cannot unmarshal value into Go struct field ErrorM.message of type string")
    else if keyMatches k "locations" then
      match v with
      | .null => decodeErrorMLoop rest msg [] err
      | .arr ls =>
        match decodeList decodeLocations ls with
        | .ok locs2 => decodeErrorMLoop rest msg locs2 err
        | .error e2 => decodeErrorMLoop rest msg locs (firstErr err e2)
      | _ =>
        decodeErrorMLoop rest msg locs
          (firstErr err "json: cannot unmarshal value into Go struct field ErrorM.locations of type []bitquery.Locations")
    else decodeErrorMLoop rest msg locs err

/-- Decode one ErrorM value as Go json would: a null element is a no-op
leaving the zero value, an object decodes by the per-key fold, anything
else is a type error. -/
def decodeErrorM (j : Json) : Except String ErrorM :=
  match j with
  | .null => .ok { message := "", locations := [] }
  | .obj fields => decodeErrorMLoop fields "" [] none
  | _ => .error "json: cannot unmarshal value into Go value of type bitquery.ErrorM"

/-- The action of one errors-matching key on the slice field and the saved
error, as Go json performs it: a null sets the slice to nil, an array
decodes elementwise (keeping the old value and saving the error on
failure), anything else saves a type error. -/
def decodeErrorsField (v : Json) (es : List ErrorM) (err : Option String) :
    List ErrorM × Option String :=
  match v with
  | .null => ([], err)
  | .arr xs =>
    match decodeList decodeErrorM xs with
    | .ok es2 => (es2, err)
    | .error e2 => (es, firstErr err e2)
  | _ => (es, firstErr err "json: cannot unmarshal value into Go value of type bitquery.Errors")

/-- Per-key fold decoding an object into the Wrapper struct, mirroring Go
json: a key matching data (case-insensitively) stores the raw value into
the RawMessage field, which accepts any document including null and where
a later matching key overwrites an earlier one; a key matching errors
applies decodeErrorsField; the first saved error is returned at the
end. -/
def decodeWrapperLoop : List (String × Json) → Option Json → List ErrorM → Option String → Except String Wrapper
  | [], d, es, none => .ok { data := d, errors := es }
  | [], _, _, some e => .error e
  | (k, v) :: rest, d, es, err =>
    if keyMatches k "data" then decodeWrapperLoop rest (some v) es err
    else if keyMatches k "errors" then
      decodeWrapperLoop rest d (decodeErrorsField v es err).1 (decodeErrorsField v es err).2
    else decodeWrapperLoop rest d es err

/-- The effect of json.Unmarshal(resp, wrapped) on an already
scanned document: a JSON object fills the two tagged fields by the
per-key fold (unknown keys are ignored, absent keys keep the zero value),
a null document is a no-op leaving the zero value, any other document is
a type error against struct Wrapper. -/
def decodeWrapper (j : Json) : Except String Wrapper :=
  match j with
  | .null => .ok { data := none, errors := [] }
  | .obj fields => decodeWrapperLoop fields none [] none
  | _ => .error "json: cannot unmarshal value into Go value of type bitquery.Wrapper"

/-- Scan the response bytes and decode them into a Wrapper, combining the
scanner and the struct decoder exactly as json.Unmarshal(resp, wrapped)
does. -/
def envelopeParse (resp : String) : Except String Wrapper :=
  match parseTop resp with
  | .error e => .error e
  | .ok j => decodeWrapper j

/-- Substring test over character lists (the strings.Contains the source
uses on the decode error message). -/
def hasPrefixL (pat s : List Char) : Bool :=
  match pat, s with
  | [], _ => true
  | _ :: _, [] => false
  | p :: ps, c :: cs => p = c && hasPrefixL ps cs

/-- Substring containment over character lists. -/
def containsL (s pat : List Char) : Bool :=
  hasPrefixL pat s ||
    match s with
    | [] => false
    | _ :: t => containsL t pat

/-- Go strings.Contains on the model strings. -/
def containsStr (s pat : String) : Bool :=
  containsL s.toList pat.toList

/-- The caller target ptr of Unmarshal, abstracted by its Go decoding
behaviour: dec decodes a non-null document into the target type (or
fails with a type error), and onNull is what Go json does to the target
when the document is the literal null — a no-op (identity) for struct,
number, string and boolean targets, but setting the value to nil
(a constant function) for map, slice, pointer and interface targets. -/
structure Target (α : Type) where
  dec : Json → Except String α
  onNull : α → α

/-- The effect of json.Unmarshal(b, ptr) for the caller target, given the
already scanned document: Go decodes JSON null by the target's null
action (no-op for non-nilable targets, set-to-nil for nilable ones);
otherwise the target decoder runs, and on its failure the prior target
value is kept.  Returns (error, final target value). -/
def decodeIntoTarget (tgt : Target α) (t0 : α) (j : Json) :
    Option String × α :=
  match j with
  | .null => (none, tgt.onNull t0)
  | _ =>
    match tgt.dec j with
    | .ok v => (none, v)
    | .error e => (some e, t0)

/-- The effect of json.Unmarshal(wrapped.Data, ptr): a nil RawMessage (the
data field was absent) is empty input, which fails the scanner with
eofMsg before anything is written to the target. -/
def decodeData (tgt : Target α) (t0 : α) :
    Option Json → Option String × α
  | none => (some eofMsg, t0)
  | some j => decodeIntoTarget tgt t0 j

/-- Space-separated join, as the fmt %v verb renders the elements of a
slice between its brackets. -/
def joinSp : List String → String
  | [] => ""
  | [m] => m
  | m :: n :: rest => m ++ " " ++ joinSp (n :: rest)

/-- The decode half of Unmarshal, operating on the raw response bytes
already returned by Do: try the envelope; on a parse error containing the
html heuristic substring return the raw body text; on any other parse
error fall back to json.Unmarshal(resp, ptr) on the whole body; on a
non-empty error list return the aggregated query error; otherwise decode
the data payload into the target. -/
def unmarshalBytes (resp : String) (tgt : Target α) (t0 : α) :
    Option String × α :=
  match envelopeParse resp with
  | .error e =>
    if containsStr e htmlHeuristic then
      (some ("resp: " ++ resp), t0)
    else
      match parseTop resp with
      | .error e2 => (some e2, t0)
      | .ok j => decodeIntoTarget tgt t0 j
  | .ok wrapped =>
    if wrapped.errors.isEmpty then
      decodeData tgt t0 wrapped.data
    else
      (some ("query error: " ++ "[" ++ joinSp (wrapped.errors.map ErrorM.String) ++ "]"), t0)

/-- Source constant Endpoint1. -/
def Endpoint1 : String := "https://graphql.bitquery.io"

/-- Source constant Endpoint2. -/
def Endpoint2 : String := "https://streaming.bitquery.io/graphql"

/-- Source interface BitqueryModel: the caller-supplied query descriptor
capability set.  ToMap is the variables mapping as an association list
(a Go map, so keys are canonically sorted when marshalled). -/
structure BitqueryModel where
  ToMap : List (String × Json)
  Query : String
  Endpoint : String

/-- The shared HTTP client configuration: a fixed 40 second request
timeout, as in the source HttpClient. -/
def HttpClientTimeoutSeconds : Nat := 40

/-- Insertion of one field into a key-sorted field list. -/
def insertByKey (p : String × Json) : List (String × Json) → List (String × Json)
  | [] => [p]
  | q :: rest => if p.1 < q.1 then p :: q :: rest else q :: insertByKey p rest

/-- Sort object fields by key, as Go json.Marshal does for a map. -/
def sortFields (fields : List (String × Json)) : List (String × Json) :=
  fields.foldr insertByKey []

/-- Go json string escaping restricted to the characters the library
escapes that its fixtures can contain. -/
def escapeChar (c : Char) : String :=
  if c = '"' then "\\" ++ "\""
  else if c = '\\' then "\\" ++ "\\"
  else if c = '\n' then "\\" ++ "n"
  else if c = '\t' then "\\" ++ "t"
  else c.toString

/-- Quote and escape a string as a JSON string literal. -/
def quoteStr (s : String) : String :=
  "\"" ++ String.join (s.toList.map escapeChar) ++ "\""

mutual

/-- Marshal a JSON value to its textual form. -/
def marshalJson : Json → String
  | .null => "null"
  | .bool true => "true"
  | .bool false => "false"
  | .num n => toString n
  | .str s => quoteStr s
  | .arr xs => "[" ++ marshalElems xs ++ "]"
  | .obj fields => "\x7b" ++ marshalMembers fields ++ "\x7d"

/-- Comma-separated marshalling of array elements. -/
def marshalElems : List Json → String
  | [] => ""
  | [x] => marshalJson x
  | x :: y :: rest => marshalJson x ++ "," ++ marshalElems (y :: rest)

/-- Comma-separated marshalling of object members. -/
def marshalMembers : List (String × Json) → String
  | [] => ""
  | [(k, v)] => quoteStr k ++ ":" ++ marshalJson v
  | (k, v) :: p :: rest => quoteStr k ++ ":" ++ marshalJson v ++ "," ++ marshalMembers (p :: rest)

end

/-- The json.Marshal of the two-field request map
map[string]any(query ..., variables ...): a Go map marshals with its keys
sorted, so query precedes variables and the variables map itself is
emitted in sorted key order. -/
def marshalQueryBody (x : BitqueryModel) : String :=
  marshalJson (.obj [("query", .str x.Query), ("variables", .obj (sortFields x.ToMap))])

/-- An outbound HTTP request as the library builds it. -/
structure HttpRequest where
  method : String
  url : String
  body : String
  headers : List (String × String)

/-- An HTTP response as the transport delivers it: a status code and the
result of reading the body to the end (io.ReadAll can fail). -/
structure HttpResponse where
  statusCode : Nat
  bodyRead : Except String String

/-- The transport oracle standing for HttpClient.Do. -/
def Transport : Type := HttpRequest → Except String HttpResponse

/-- The observable outcome of one Do call: the trace of issued requests,
whether the response body stream was closed (none when no response was
ever obtained), and the returned bytes or error. -/
structure DoResult where
  trace : List HttpRequest
  bodyClosed : Option Bool
  result : Except String String

/-- The request Do constructs: a POST to x.Endpoint() whose body is the
marshalled query map, with the two headers set. -/
def buildRequest (apikey : String) (x : BitqueryModel) : HttpRequest :=
  { method := "POST"
    url := x.Endpoint
    body := marshalQueryBody x
    headers := [("Content-Type", "application/json"), ("X-API-KEY", apikey)] }

/-- Source function Do: marshal the query map (total over the Json model),
then build the POST request with http.NewRequest, whose URL validation is
outside this repository and is therefore an oracle urlErr (none for a
parseable endpoint URL, some of the parse error otherwise); on a URL
parse failure Do returns the bad-request error without issuing any
request; otherwise it executes the request once over the client and reads
the whole body, and defer response.Body.Close() closes the stream on both
the read-error and the success path. -/
def Do (urlErr : String → Option String) (transport : Transport)
    (apikey : String) (x : BitqueryModel) : DoResult :=
  let request := buildRequest apikey x
  match urlErr x.Endpoint with
  | some e =>
    { trace := [], bodyClosed := none, result := .error ("bad request: " ++ e) }
  | none =>
    match transport request with
    | .error e =>
      { trace := [request], bodyClosed := none
        result := .error ("the HTTP request failed with error " ++ e) }
    | .ok response =>
      match response.bodyRead with
      | .error e => { trace := [request], bodyClosed := some true, result := .error e }
      | .ok data => { trace := [request], bodyClosed := some true, result := .ok data }

/-- Source function Unmarshal: run Do, propagate its error unchanged, and
otherwise decode the response bytes; the caller target is modelled by its
Target record and its prior value t0, and the returned pair is
(error, final target value). -/
def Unmarshal (urlErr : String → Option String) (transport : Transport)
    (apikey : String) (x : BitqueryModel)
    (tgt : Target α) (t0 : α) : Option String × α :=
  match (Do urlErr transport apikey x).result with
  | .error e => (some e, t0)
  | .ok resp => unmarshalBytes resp tgt t0

/-- Concrete caller target for the fixtures: a struct with one int field x.
Decoding requires the document to be an object whose x member, when
present, is a number (an absent member keeps the prior value, which the
decoder cannot see, so the fixture decoder requires x to be present). -/
def decX (j : Json) : Except String Int :=
  match j with
  | .obj fields =>
    match lookupLast "x" fields with
    | some (.num n) => .ok n
    | _ => .error "json: cannot unmarshal value into Go struct field .x of type int"
  | _ => .error "json: cannot unmarshal value into Go value of type int target"

/-- Fixture target record for decX: a struct target, so Go decodes a JSON
null into it as a no-op. -/
def targetX : Target Int :=
  { dec := decX, onNull := fun t => t }

/-- Decoder for a caller target of Go type []int, exercising the
bare-JSON fallback on array documents; the carrier is Option so that the
nil slice (none) is representable. -/
def decIntList (j : Json) : Except String (Option (List Int)) :=
  match j with
  | .arr xs =>
    match decodeList (fun v => match v with
      | .num n => .ok n
      | _ => .error "json: cannot unmarshal value into Go value of type int") xs with
    | .ok ns => .ok (some ns)
    | .error e => .error e
  | _ => .error "json: cannot unmarshal value into Go value of type []int"

/-- Fixture target record for decIntList: a slice target, so Go sets it
to nil on a JSON null. -/
def targetIntList : Target (Option (List Int)) :=
  { dec := decIntList, onNull := fun _ => none }

/-- Decoder for a caller target of Go type map[string]int; the carrier is
Option so that the nil map (none) is representable. -/
def decStrIntMap (j : Json) : Except String (Option (List (String × Int))) :=
  match j with
  | .obj fields =>
    match decodeList (fun v => match v with
      | .num n => .ok n
      | _ => .error "json: cannot unmarshal value into Go value of type int") (fields.map Prod.snd) with
    | .ok ns => .ok (some ((fields.map Prod.fst).zip ns))
    | .error e => .error e
  | _ => .error "json: cannot unmarshal value into Go value of type map[string]int"

/-- Fixture target record for decStrIntMap: a map target, so Go sets it
to nil on a JSON null. -/
def targetStrIntMap : Target (Option (List (String × Int))) :=
  { dec := decStrIntMap, onNull := fun _ => none }

/-- C1 counterexample: the body is the bare JSON object with x equal to 7,
yet Unmarshal does not succeed with the target set to 7; the envelope
parse accepts the object (unknown keys are ignored), so the fallback never
runs and the nil data payload fails to decode. -/
theorem unmarshal_bare_object_cex :
    ¬ (unmarshalBytes "\x7b\"x\": 7\x7d" targetX 0 = ((none : Option String), (7 : Int))) := by
  decide

/-- C1 amended: a bare JSON object such as the x equal 7 document parses as
an envelope with an absent data payload, so Unmarshal returns the
decode error of the empty payload and leaves the target unchanged; the
bare-JSON fallback applies only to bodies whose envelope parse fails
without the html heuristic, such as a top-level JSON array, which is then
decoded directly into the caller target. -/
theorem unmarshal_bare_json_amended (t0 : Int) (s0 : Option (List Int)) :
    unmarshalBytes "\x7b\"x\": 7\x7d" targetX t0 = (some eofMsg, t0) ∧
    unmarshalBytes "[7]" targetIntList s0 = (none, some [7]) :=
  ⟨rfl, rfl⟩

/-- C5: when the endpoint URL is valid, Do issues exactly one request, and
that request is a POST to the descriptor endpoint whose body is the
marshalled two-field query map and whose headers are the JSON content
type and the verbatim api key; when the endpoint URL fails to parse, Do
issues no request at all and returns the bad-request error. -/
theorem Do_single_post_request (urlErr : String → Option String) (transport : Transport)
    (apikey : String) (x : BitqueryModel) :
    (urlErr x.Endpoint = none →
      (Do urlErr transport apikey x).trace = [buildRequest apikey x]) ∧
    (buildRequest apikey x).method = "POST" ∧
    (buildRequest apikey x).url = x.Endpoint ∧
    (buildRequest apikey x).body = marshalQueryBody x ∧
    (buildRequest apikey x).headers = [("Content-Type", "application/json"), ("X-API-KEY", apikey)] ∧
    (∀ e, urlErr x.Endpoint = some e →
      (Do urlErr transport apikey x).trace = [] ∧
      (Do urlErr transport apikey x).result = .error ("bad request: " ++ e)) := by
  refine ⟨?_, rfl, rfl, rfl, rfl, ?_⟩
  · intro hu
    cases h : transport (buildRequest apikey x) with
    | error e => simp [Do, hu, h]
    | ok response =>
      cases h2 : response.bodyRead with
      | error e => simp [Do, hu, h, h2]
      | ok d => simp [Do, hu, h, h2]
  · intro e hu
    refine ⟨?_, ?_⟩ <;> simp [Do, hu]

/-- C5 witness: a valid-URL oracle issues the one POST, an invalid-URL
oracle issues none. -/
theorem Do_single_post_request_witness :
    (Do (fun _ => none) (fun _ => .error "down") "k"
        { ToMap := [], Query := "q", Endpoint := Endpoint1 }).trace
      = [buildRequest "k" { ToMap := [], Query := "q", Endpoint := Endpoint1 }] ∧
    (Do (fun _ => some "invalid URL escape") (fun _ => .error "down") "k"
        { ToMap := [], Query := "q", Endpoint := Endpoint1 }).trace = [] :=
  ⟨(Do_single_post_request (fun _ => none) (fun _ => .error "down") "k"
      { ToMap := [], Query := "q", Endpoint := Endpoint1 }).1 rfl,
   ((Do_single_post_request (fun _ => some "invalid URL escape") (fun _ => .error "down") "k"
      { ToMap := [], Query := "q", Endpoint := Endpoint1 }).2.2.2.2.2
      "invalid URL escape" rfl).1⟩

/-- C6: once the transport yields a response, Do closes the body stream on
both remaining exit paths, and the returned bytes are exactly the bytes
the body read produced, with the status code never inspected. -/
theorem Do_body_exact_and_closed (urlErr : String → Option String) (transport : Transport)
    (apikey : String) (x : BitqueryModel) (response : HttpResponse)
    (hu : urlErr x.Endpoint = none)
    (h : transport (buildRequest apikey x) = .ok response) :
    (Do urlErr transport apikey x).bodyClosed = some true ∧
    (∀ b, response.bodyRead = .ok b → (Do urlErr transport apikey x).result = .ok b) ∧
    (∀ e2, response.bodyRead = .error e2 → (Do urlErr transport apikey x).result = .error e2) := by
  refine ⟨?_, ?_, ?_⟩
  · cases h2 : response.bodyRead with
    | error e => simp [Do, hu, h, h2]
    | ok d => simp [Do, hu, h, h2]
  · intro b hb
    simp [Do, hu, h, hb]
  · intro e2 he2
    simp [Do, hu, h, he2]

/-- C6 witness at a transport returning status 502 with a readable body. -/
theorem Do_body_exact_and_closed_witness :
    (Do (fun _ => none) (fun _ => .ok { statusCode := 502, bodyRead := .ok "response-bytes" }) "k"
        { ToMap := [], Query := "q", Endpoint := Endpoint1 }).bodyClosed = some true ∧
    (Do (fun _ => none) (fun _ => .ok { statusCode := 502, bodyRead := .ok "response-bytes" }) "k"
        { ToMap := [], Query := "q", Endpoint := Endpoint1 }).result = .ok "response-bytes" := by
  have hh := Do_body_exact_and_closed (fun _ => none)
    (fun _ => .ok { statusCode := 502, bodyRead := .ok "response-bytes" }) "k"
    { ToMap := [], Query := "q", Endpoint := Endpoint1 }
    { statusCode := 502, bodyRead := .ok "response-bytes" } rfl rfl
  exact ⟨hh.1, hh.2.1 "response-bytes" rfl⟩

/-- C7: when Do fails, Unmarshal returns that same error unchanged and the
caller target keeps its prior value, with no parsing or decoding. -/
theorem Unmarshal_propagates_do_error (urlErr : String → Option String)
    (transport : Transport) (apikey : String) (x : BitqueryModel)
    (tgt : Target α) (t0 : α) (e : String)
    (h : (Do urlErr transport apikey x).result = .error e) :
    Unmarshal urlErr transport apikey x tgt t0 = (some e, t0) := by
  unfold Unmarshal
  rw [h]

/-- C7 witness at a transport refusing the connection. -/
theorem Unmarshal_propagates_do_error_witness :
    Unmarshal (fun _ => none) (fun _ => .error "connection refused") "k"
        { ToMap := [], Query := "q", Endpoint := Endpoint2 } targetX 99
      = (some "the HTTP request failed with error connection refused", 99) :=
  Unmarshal_propagates_do_error (fun _ => none) (fun _ => .error "connection refused") "k"
    { ToMap := [], Query := "q", Endpoint := Endpoint2 } targetX 99
    "the HTTP request failed with error connection refused" rfl

/-- C10 counterexample: at a map target holding one entry, the explicit
null data payload makes Unmarshal succeed but set the map to nil, so the
target is not left exactly as it was before the call. -/
theorem unmarshal_null_map_target_cex :
    ¬ (unmarshalBytes "\x7b\"data\": null\x7d" targetStrIntMap (some [("k", 1)])
        = ((none : Option String), some [("k", 1)])) := by
  decide

/-- C10 amended: a body whose data member is an explicit JSON null, with or
without an empty errors member, makes Unmarshal succeed and apply to the
caller target exactly the Go null action of its kind: struct, number,
string and boolean targets keep their prior value, while map, slice,
pointer and interface targets are set to nil. -/
theorem unmarshal_null_data_frame (tgt : Target α) (t0 : α) :
    unmarshalBytes "\x7b\"data\": null\x7d" tgt t0 = (none, tgt.onNull t0) ∧
    unmarshalBytes "\x7b\"data\": null, \"errors\": []\x7d" tgt t0 = (none, tgt.onNull t0) :=
  ⟨rfl, rfl⟩

end Bitquery
